import Mathlib

/-!
Verification development for the Auto RIS Builder application
(`app_streamlit.py` / `app_streamlit_fixed.py`): a shallow embedding of the
resolution-and-normalization pipeline (DOI detection, Crossref metadata
normalization, RIS serialization, and the batch processing loops), together
with theorems settling the specification claims.

Strings are modelled as Lean `String`s (lists of unicode scalar values), and
the Python string operations used by the source (`strip`, `split`,
`splitlines`, `lower`, `startswith`) are embedded with Python's semantics on
the character classes the application manipulates.
-/

namespace RefApp

/-- Characters treated as whitespace by Python's `str.strip()` / `str.split()`
(the `str.isspace` set). -/
def isPySpace (c : Char) : Bool :=
  let n := c.toNat
  n == 32 || (9 ≤ n && n ≤ 13) || (28 ≤ n && n ≤ 31) || n == 133 || n == 160 ||
  n == 5760 || (8192 ≤ n && n ≤ 8202) || n == 8232 || n == 8233 || n == 8239 ||
  n == 8287 || n == 12288

/-- Characters on which Python's `str.splitlines()` breaks, other than the
`"\r\n"` pair which is handled separately. -/
def isLineBreakChar (c : Char) : Bool :=
  let n := c.toNat
  n == 10 || n == 13 || n == 11 || n == 12 || (28 ≤ n && n ≤ 30) ||
  n == 133 || n == 8232 || n == 8233

/-- `str.strip()` on a character list. -/
def pyStripL (l : List Char) : List Char :=
  ((l.dropWhile isPySpace).reverse.dropWhile isPySpace).reverse

/-- Python `str.strip()`. -/
def pyStrip (s : String) : String := ⟨pyStripL s.data⟩

/-- Worker for `pySplitlines`: Python `str.splitlines()` semantics
(a trailing terminator produces no trailing empty line). -/
def splitlinesAux : List Char → List Char → List (List Char)
  | [], acc => if acc.isEmpty then [] else [acc.reverse]
  | '\r' :: '\n' :: rest, acc => acc.reverse :: splitlinesAux rest []
  | c :: rest, acc =>
    if isLineBreakChar c then acc.reverse :: splitlinesAux rest []
    else splitlinesAux rest (c :: acc)

/-- Python `str.splitlines()`. -/
def pySplitlines (s : String) : List String :=
  (splitlinesAux s.data []).map (fun l => ⟨l⟩)

/-- Worker for `pySplitWs`. -/
def wsTokensAux : List Char → List Char → List (List Char)
  | [], acc => if acc.isEmpty then [] else [acc.reverse]
  | c :: rest, acc =>
    if isPySpace c then
      if acc.isEmpty then wsTokensAux rest []
      else acc.reverse :: wsTokensAux rest []
    else wsTokensAux rest (c :: acc)

/-- Python `str.split()` with no separator: split on whitespace runs,
dropping empty tokens. -/
def pySplitWs (s : String) : List String :=
  (wsTokensAux s.data []).map (fun l => ⟨l⟩)

/-- Python `str.lower()` (ASCII letters; the application only compares
ASCII prefixes). -/
def pyLower (s : String) : String := ⟨s.data.map Char.toLower⟩

/-- Python `str.startswith(p)`. -/
def pyStartsWith (s p : String) : Bool := p.data.isPrefixOf s.data

/-- `clean` from the source: absent/None becomes the empty string, and the
value is trimmed of leading/trailing whitespace. -/
def clean (s : Option String) : String := pyStrip (s.getD "")

/-- `ris_escape` from the source: replace embedded newlines by a single
space, then trim. -/
def ris_escape (v : String) : String :=
  pyStrip ⟨v.data.map (fun c => if c = '\n' then ' ' else c)⟩

/-! ## The normalized record (the `meta` dict built by `crossref_to_meta`). -/

/-- The canonical normalized record: the dictionary produced by
`crossref_to_meta` and consumed by `to_ris_lines`.  Every key the source
reads is a field; a missing/None value is the empty string (for `year`,
`none`, matching the `None` stored by `crossref_first_year`). -/
structure Meta where
  type : String := ""
  title : String := ""
  authors : List String := []
  year : Option String := none
  journal : String := ""
  volume : String := ""
  issue : String := ""
  sp : String := ""
  ep : String := ""
  doi : String := ""
  url : String := ""
  publisher : String := ""
  abstract : String := ""
  keywords : List String := []
deriving DecidableEq, Repr

/-- Emit a single tag line when the guarding field value is truthy
(non-empty), as the source's `if meta.get(k): lines.append(...)`. -/
def emitIf (guard : String) (line : String) : List String :=
  if guard = "" then [] else [line]

/-- The value of the `lines` list built by `to_ris_lines` just before the
final `ER` append: one RIS tag line per non-empty field, in the source's
fixed order.  `ris_escape` is applied exactly where the source applies it
(TI/T2/PB/AU/AB/KW) and nowhere else. -/
def risFront (m : Meta) : List String :=
  ["TY  - " ++ (if m.type = "" then "GEN" else m.type)]
  ++ emitIf m.title ("TI  - " ++ ris_escape m.title)
  ++ emitIf m.journal ("T2  - " ++ ris_escape m.journal)
  ++ emitIf m.publisher ("PB  - " ++ ris_escape m.publisher)
  ++ emitIf (m.year.getD "") ("PY  - " ++ m.year.getD "")
  ++ emitIf m.volume ("VL  - " ++ m.volume)
  ++ emitIf m.issue ("IS  - " ++ m.issue)
  ++ m.authors.filterMap (fun a => if a = "" then none else some ("AU  - " ++ ris_escape a))
  ++ emitIf m.sp ("SP  - " ++ m.sp)
  ++ emitIf m.ep ("EP  - " ++ m.ep)
  ++ emitIf m.doi ("DO  - " ++ m.doi)
  ++ emitIf m.url ("UR  - " ++ m.url)
  ++ emitIf m.abstract ("AB  - " ++ ris_escape m.abstract)
  ++ m.keywords.filterMap (fun kw => if kw = "" then none else some ("KW  - " ++ ris_escape kw))

/-- `to_ris_lines` from the source: the tag lines, terminated by the
end-of-record marker line. -/
def to_ris_lines (m : Meta) : List String :=
  risFront m ++ ["ER  - "]

/-! ## DOI pattern search (`DOI_REGEX` and `find_doi_in_text`).

The source regex is `(10\.\d{4,9}/[-._;()/:A-Z0-9]+)` with `re.I`, used via
`.search` (leftmost match).  At a given start position the match is fully
deterministic: after the literal `10.` the greedy digit run must end at a
non-digit, so the `/` can only follow the whole digit run, which therefore
must have length 4 to 9; the trailing character-class run is greedy with
nothing after it.  `doiMatchAt` embeds that per-position semantics and
`doiSearch` the left-to-right scan. -/

/-- ASCII digit test (`\d` in the source regex, which operates on `str`). -/
def isDigitCh (c : Char) : Bool := '0' ≤ c && c ≤ '9'

/-- Membership in the regex character class `[-._;()/:A-Z0-9]` under `re.I`. -/
def isDoiTokChar (c : Char) : Bool :=
  c == '-' || c == '.' || c == '_' || c == ';' || c == '(' || c == ')' ||
  c == '/' || c == ':' || isDigitCh c ||
  ('A' ≤ c && c ≤ 'Z') || ('a' ≤ c && c ≤ 'z')

/-- Attempt a `DOI_REGEX` match anchored at the head of the list; returns the
matched characters.  The greedy digit run must end at a non-digit, so the
`/` can only follow the whole run, whose length must then be 4 to 9; the
trailing class run is greedy with nothing after it. -/
def doiMatchAt : List Char → Option (List Char)
  | c1 :: c2 :: c3 :: rest =>
    if c1 = '1' ∧ c2 = '0' ∧ c3 = '.' then
      let ds := rest.takeWhile isDigitCh
      if 4 ≤ ds.length ∧ ds.length ≤ 9 then
        match rest.dropWhile isDigitCh with
        | c4 :: rest3 =>
          if c4 = '/' then
            let tok := rest3.takeWhile isDoiTokChar
            if tok.isEmpty then none
            else some (c1 :: c2 :: c3 :: (ds ++ c4 :: tok))
          else none
        | [] => none
      else none
    else none
  | _ => none

/-- `DOI_REGEX.search`: try each start position left to right. -/
def doiSearch : List Char → Option (List Char)
  | [] => none
  | c :: rest => (doiMatchAt (c :: rest)).orElse (fun _ => doiSearch rest)

/-- `find_doi_in_text` from the source. -/
def find_doi_in_text (t : String) : Option String :=
  (doiSearch t.data).map (fun l => ⟨l⟩)

/-! ## Crossref raw metadata model.

The raw registry response is a JSON object; the embedding models exactly the
fields the source reads, with Python's truthiness conventions: an absent or
non-list `title`/`container-title` behaves as the empty list, an absent or
falsy `author`/`subject` as the empty list, an absent date key as an empty
`date-parts`.  A date-parts component is a JSON value on which the source
calls `int(...)`: an integer, a string (parsed with Python `int`), or some
other value on which `int` raises. -/

/-- A JSON value in a `date-parts` slot, as seen by Python's `int(...)`. -/
inductive YearVal where
  | jint (n : Int)
  | jstr (s : String)
  | jnull
deriving DecidableEq, Repr

/-- Continuation of a digit run for Python `int(str)`: further digits, with
single underscores allowed between digits. -/
def intDigitsAux : List Char → Nat → Option Nat
  | [], acc => some acc
  | '_' :: rest, acc =>
    match rest with
    | c :: rest2 =>
      if isDigitCh c then intDigitsAux rest2 (acc * 10 + (c.toNat - 48)) else none
    | [] => none
  | c :: rest, acc =>
    if isDigitCh c then intDigitsAux rest (acc * 10 + (c.toNat - 48)) else none

/-- Digit-string to number (for Python `int(str)`): a leading digit, then
digits with single underscores allowed between them. -/
def digitsToNat : List Char → Option Nat
  | [] => none
  | c :: rest =>
    if isDigitCh c then intDigitsAux rest (c.toNat - 48) else none

/-- Python `int(s)` on a string: optional sign around a digit run, tolerating
surrounding whitespace; `none` when `int` raises `ValueError`. -/
def pyIntOfStr (s : String) : Option Int :=
  match pyStripL s.data with
  | '-' :: ds => (digitsToNat ds).map (fun n => -(n : Int))
  | '+' :: ds => (digitsToNat ds).map (fun n => (n : Int))
  | ds => (digitsToNat ds).map (fun n => (n : Int))

/-- Python `int(v)` on a date-parts component. -/
def YearVal.toInt? : YearVal → Option Int
  | .jint n => some n
  | .jstr s => pyIntOfStr s
  | .jnull => none

/-- One raw author object (`given`/`family` keys). -/
structure CrossrefAuthor where
  given : Option String := none
  family : Option String := none
deriving DecidableEq, Repr

/-- The raw Crossref `message` object: exactly the keys the source reads. -/
structure CrossrefMsg where
  ctype : Option String := none
  title : List String := []
  containerTitle : List String := []
  author : List CrossrefAuthor := []
  page : Option String := none
  abstract : Option String := none
  subject : List (Option String) := []
  volume : Option String := none
  issue : Option String := none
  DOI : Option String := none
  URL : Option String := none
  publisher : Option String := none
  publishedPrint : List (List YearVal) := []
  issued : List (List YearVal) := []
  created : List (List YearVal) := []
  publishedOnline : List (List YearVal) := []
deriving DecidableEq, Repr

/-- The `TYPE_MAP` table from the source. -/
def TYPE_MAP (s : String) : Option String :=
  if s = "journal-article" then some "JOUR"
  else if s = "proceedings-article" then some "CPAPER"
  else if s = "book-chapter" then some "CHAP"
  else if s = "book" then some "BOOK"
  else if s = "report" then some "RPRT"
  else if s = "thesis" then some "THES"
  else if s = "reference-entry" then some "GEN"
  else if s = "posted-content" then some "GEN"
  else if s = "dataset" then some "DATA"
  else if s = "standard" then some "STD"
  else none

/-- `normalize_author` from the source. -/
def normalize_author (a : CrossrefAuthor) : String :=
  let given := clean a.given
  let family := clean a.family
  if family ≠ "" && given ≠ "" then family ++ ", " ++ given
  else if family ≠ "" then family
  else if given ≠ "" then given
  else ""

/-- The loop body of `crossref_first_year`, iterating over the four
`date-parts` lists in precedence order: skip a key whose parts list or first
entry is empty, skip a key whose first component does not `int`-parse. -/
def yearLoop : List (List (List YearVal)) → Option String
  | [] => none
  | ((y :: _) :: _) :: rest =>
    match y.toInt? with
    | some n => some (toString n)
    | none => yearLoop rest
  | _ :: rest => yearLoop rest

/-- `crossref_first_year` from the source: keys tried in the order
`published-print`, `issued`, `created`, `published-online`. -/
def crossref_first_year (msg : CrossrefMsg) : Option String :=
  yearLoop [msg.publishedPrint, msg.issued, msg.created, msg.publishedOnline]

/-! ## Tag stripping, page splitting, and `crossref_to_meta`. -/

/-- Split a character list at the first occurrence of `sep`: the characters
before it and the characters after it, or `none` when `sep` is absent.
Embeds both Python's `"-" in page` / `page.split("-", 1)` pair and the
first-`>` step of the tag regex. -/
def breakAtChar (sep : Char) : List Char → Option (List Char × List Char)
  | [] => none
  | c :: rest =>
    if c = sep then some ([], rest)
    else (breakAtChar sep rest).map (fun p => (c :: p.1, p.2))

/-- Single left-to-right pass embedding `re.sub(r"<[^>]+>", " ", s)`: each
maximal span from a `<` through the next `>` with at least one character
between them is replaced by one space.  The second argument buffers (in
reverse) the characters of a pending open `<` span; an unclosed span is
emitted verbatim, and `<>` (empty span, which `[^>]+` cannot match) is also
emitted verbatim. -/
def stripTagsAux : List Char → Option (List Char) → List Char
  | [], none => []
  | [], some buf => buf.reverse
  | c :: rest, none =>
    if c = '<' then stripTagsAux rest (some [c])
    else c :: stripTagsAux rest none
  | c :: rest, some buf =>
    if c = '>' then
      if 2 ≤ buf.length then ' ' :: stripTagsAux rest none
      else buf.reverse ++ '>' :: stripTagsAux rest none
    else stripTagsAux rest (some (c :: buf))

/-- `re.sub(r"<[^>]+>", " ", s)` from the abstract-normalization branch. -/
def stripTags (l : List Char) : List Char := stripTagsAux l none

/-- The page-splitting block of `crossref_to_meta`: from the cleaned `page`
value, `sp`/`ep` via `page.split("-", 1)` when a hyphen is present. -/
def splitPage (page : String) : String × String :=
  if page ≠ "" then
    match breakAtChar '-' page.data with
    | some (b, a) => (pyStrip ⟨b⟩, pyStrip ⟨a⟩)
    | none => (pyStrip page, "")
  else ("", "")

/-- The abstract-normalization block of `crossref_to_meta`: clean, then strip
tag spans only when the cleaned value starts with `"<jats:"`. -/
def normAbstract (raw : Option String) : String :=
  let abstract := clean raw
  if pyStartsWith abstract "<jats:" then pyStrip ⟨stripTags abstract.data⟩
  else abstract

/-- `crossref_to_meta` from the source. -/
def crossref_to_meta (msg : CrossrefMsg) : Meta :=
  let ty := (TYPE_MAP (pyLower (msg.ctype.getD ""))).getD "GEN"
  let title := match msg.title with
    | t :: _ => t
    | [] => ""
  let journal := match msg.containerTitle with
    | j :: _ => j
    | [] => ""
  let authors := msg.author.map normalize_author
  let page := clean msg.page
  let pages := splitPage page
  let keywords := msg.subject.filterMap (fun s => s.map pyStrip)
  { type := ty
    title := clean (some title)
    authors := authors
    year := crossref_first_year msg
    journal := clean (some journal)
    volume := clean msg.volume
    issue := clean msg.issue
    sp := pages.1
    ep := pages.2
    doi := clean msg.DOI
    url := clean msg.URL
    publisher := clean msg.publisher
    abstract := normAbstract msg.abstract
    keywords := keywords }

/-! ## Title guessing from PDF text. -/

/-- The line filter of `guess_title_from_pdf_text`: at least 4 whitespace
tokens, no excluded (lower-cased) prefix among `arxiv:`, `doi:`, `issn:`,
`copyright`, and length between 10 and 200 inclusive. -/
def qualifiesTitleLine (line : String) : Bool :=
  4 ≤ (pySplitWs line).length
  && !(pyStartsWith (pyLower line) "arxiv:"
    || pyStartsWith (pyLower line) "doi:"
    || pyStartsWith (pyLower line) "issn:"
    || pyStartsWith (pyLower line) "copyright")
  && 10 ≤ line.length && line.length ≤ 200

/-- `guess_title_from_pdf_text` from the source: scan the lines in order,
strip each, return the first whose stripped form qualifies. -/
def guess_title_from_pdf_text (text : String) : Option String :=
  (pySplitlines text).findSome? (fun raw =>
    let line := pyStrip raw
    if qualifiesTitleLine line then some line else none)

/-! ## HTML title extraction (`re.search(r"<title[^>]*>(.*?)</title>", page, re.I|re.S)`). -/

/-- Case-insensitive character comparison (ASCII fold), for the `re.I`
literal parts of the title regex. -/
def lcEq (a b : Char) : Bool := a.toLower == b.toLower

/-- Case-insensitive list-prefix test. -/
def ciHasPrefix : List Char → List Char → Bool
  | [], _ => true
  | _ :: _, [] => false
  | p :: ps, t :: ts => lcEq p t && ciHasPrefix ps ts

/-- First case-insensitive occurrence of `pat`: the characters before it and
the characters after it. -/
def findCISub (pat : List Char) : List Char → Option (List Char × List Char)
  | [] => if pat.isEmpty then some ([], []) else none
  | c :: rest =>
    if ciHasPrefix pat (c :: rest) then some ([], (c :: rest).drop pat.length)
    else (findCISub pat rest).map (fun p => (c :: p.1, p.2))

/-- Anchored match of the title regex: `<title` (case-insensitive), then
`[^>]*>` (everything up to the first `>`), then the lazy dotall group up to
the first `</title>`. -/
def htmlTitleAt (l : List Char) : Option (List Char) :=
  if ciHasPrefix "<title".data l then
    match breakAtChar '>' (l.drop 6) with
    | some (_, afterGt) =>
      match findCISub "</title>".data afterGt with
      | some (content, _) => some content
      | none => none
    | none => none
  else none

/-- `re.search` of the title regex: try each start position left to right;
returns the captured group (the element content). -/
def htmlTitleSearch : List Char → Option (List Char)
  | [] => none
  | c :: rest => (htmlTitleAt (c :: rest)).orElse (fun _ => htmlTitleSearch rest)

/-- Worker for `collapseWs` (`re.sub(r"\s+", " ", s)`): the flag records
whether the previous character was whitespace. -/
def collapseWsAux : List Char → Bool → List Char
  | [], _ => []
  | c :: rest, inWs =>
    if isPySpace c then
      if inWs then collapseWsAux rest true
      else ' ' :: collapseWsAux rest true
    else c :: collapseWsAux rest false

/-- The title-guess cleanup from the source: collapse whitespace runs to a
single space, then strip. -/
def collapseWs (l : List Char) : String := pyStrip ⟨collapseWsAux l false⟩

/-- The page-title guess of the URL strategy: the collapsed content of the
first HTML title element, or the empty string when the regex does not match. -/
def pageTitleGuess (page : String) : String :=
  match htmlTitleSearch page.data with
  | some content => collapseWs content
  | none => ""

/-! ## The resolution pipeline and the batch loops.

Network and PDF-backend effects are modelled by an oracle record `Net`: each
external call is a function of its argument returning `Except String`; an
`.error e` value models the Python call raising an exception with message
`e`.  The per-item `try` block becomes a value of `Except String`, and the
`except` clause the `.error` case of the wrapper that builds the audit
entry.  This mirrors the source loops exactly: one audit entry is appended
per iteration on every path. -/

/-- An uploaded PDF file: its `.name` and the bytes `.read()` returns. -/
structure PdfFile where
  name : String := ""
  bytes : List Nat := []

/-- Oracles for the external calls of the pipeline. -/
structure Net where
  /-- `fetch_crossref_by_doi`: raw registry message or a raised exception. -/
  fetchByDoi : String → Except String CrossrefMsg
  /-- `requests.get(item).text` for the URL strategy. -/
  httpGetText : String → Except String String
  /-- the network part of `search_crossref_by_title`: top hit or absent. -/
  searchTitle : String → Except String (Option CrossrefMsg)
  /-- `extract_text_from_pdf_bytes` (external extraction backends). -/
  extractPdf : List Nat → Except String String

/-- One audit entry, as built by the batch loops (`error` is `none` where
the source omits the key). -/
structure AuditEntry where
  input : String
  route : String
  success : Bool
  meta : Option Meta
  error : Option String
deriving DecidableEq, Repr

/-- `search_crossref_by_title` from the source: an empty or whitespace-only
title short-circuits to `None` without a network call. -/
def search_crossref_by_title (net : Net) (title : String) :
    Except String (Option CrossrefMsg) :=
  if pyStrip title = "" then .ok none else net.searchTitle title

/-- The direct-DOI branch of the items loop: the whole item string is handed
to `fetch_crossref_by_doi`, route `doi`. -/
def directDoiStrategy (net : Net) (item : String) : Except String (Option Meta × String) :=
  match net.fetchByDoi item with
  | .ok msg => .ok (some (crossref_to_meta msg), "doi")
  | .error e => .error e

/-- The URL branch of the items loop: fetch the page, look for an embedded
DOI (route `url_doi`, fetching the matched group), else fall back to the
page-title search (route `url_title`). -/
def urlStrategy (net : Net) (item : String) : Except String (Option Meta × String) :=
  match net.httpGetText item with
  | .error e => .error e
  | .ok page =>
    match doiSearch page.data with
    | some g =>
      match net.fetchByDoi ⟨g⟩ with
      | .ok msg => .ok (some (crossref_to_meta msg), "url_doi")
      | .error e => .error e
    | none =>
      let t := pageTitleGuess page
      if t = "" then .ok (none, "")
      else
        match search_crossref_by_title net t with
        | .error e => .error e
        | .ok (some hit) => .ok (some (crossref_to_meta hit), "url_title")
        | .ok none => .ok (none, "")

/-- The `try` block of the DOI/URL items loop: the direct-DOI branch when
`DOI_REGEX.search(item)` matches anywhere in the line, else the URL branch.
Returns the (optional) record and the route string, or the exception
message. -/
def attemptListItem (net : Net) (item : String) : Except String (Option Meta × String) :=
  if (doiSearch item.data).isSome then directDoiStrategy net item
  else urlStrategy net item

/-- One iteration of the DOI/URL items loop: run the `try` block and build
the audit entry (the `except` clause uses route `url_error` and records the
exception message). -/
def processListItem (net : Net) (item : String) : Option Meta × AuditEntry :=
  match attemptListItem net item with
  | .ok (some m, route) => (some m, ⟨item, route, true, some m, none⟩)
  | .ok (none, route) => (none, ⟨item, route, false, none, none⟩)
  | .error e => (none, ⟨item, "url_error", false, none, some e⟩)

/-- The `try` block of the PDF files loop. -/
def attemptPdfItem (net : Net) (f : PdfFile) : Except String (Option Meta × String) :=
  match net.extractPdf f.bytes with
  | .error e => .error e
  | .ok text =>
    match find_doi_in_text text with
    | some d =>
      match net.fetchByDoi d with
      | .ok msg => .ok (some (crossref_to_meta msg), "pdf_doi")
      | .error e => .error e
    | none =>
      let t := (guess_title_from_pdf_text text).getD ""
      if t = "" then .ok (none, "")
      else
        match search_crossref_by_title net t with
        | .error e => .error e
        | .ok (some hit) => .ok (some (crossref_to_meta hit), "pdf_title")
        | .ok none => .ok (none, "")

/-- One iteration of the PDF files loop (`except` clause: route
`pdf_error`). -/
def processPdfItem (net : Net) (f : PdfFile) : Option Meta × AuditEntry :=
  match attemptPdfItem net f with
  | .ok (some m, route) => (some m, ⟨f.name, route, true, some m, none⟩)
  | .ok (none, route) => (none, ⟨f.name, route, false, none, none⟩)
  | .error e => (none, ⟨f.name, "pdf_error", false, none, some e⟩)

/-- The items preprocessing of the batch tab: strip each line of the text
area, dropping blank ones. -/
def lineItems (listBox : String) : List String :=
  (pySplitlines listBox).filterMap (fun ln =>
    let v := pyStrip ln
    if v = "" then none else some v)

/-- Append one processed item's outcome to the accumulating
`results`/`audit` pair. -/
def batchStep (st : List Meta × List AuditEntry) (pa : Option Meta × AuditEntry) :
    List Meta × List AuditEntry :=
  match pa with
  | (some m, a) => (st.1 ++ [m], st.2 ++ [a])
  | (none, a) => (st.1, st.2 ++ [a])

/-- The batch tab's processing: the PDF loop, then the DOI/URL items loop,
each appending to the shared `results` and `audit` lists. -/
def tab_batch (net : Net) (pdfs : List PdfFile) (listBox : String) :
    List Meta × List AuditEntry :=
  let items := lineItems listBox
  let st1 := pdfs.foldl (fun st f => batchStep st (processPdfItem net f)) ([], [])
  items.foldl (fun st it => batchStep st (processListItem net it)) st1

/-! ## Spec-level definitions and concrete oracles used by the claim
statements. -/

/-- The two-character tag of a serialized RIS line. -/
def tagOf (l : String) : String := ⟨l.data.take 2⟩

/-- Spec-level statement for one serialized line: a tag line is present only
when its source field is truthy (non-empty); used to state that no tag line
is ever emitted for an empty or absent field. -/
def noEmptyTagAt (m : Meta) (l : String) : Prop :=
  (tagOf l = "TI" → m.title ≠ "")
  ∧ (tagOf l = "T2" → m.journal ≠ "")
  ∧ (tagOf l = "PB" → m.publisher ≠ "")
  ∧ (tagOf l = "PY" → m.year.getD "" ≠ "")
  ∧ (tagOf l = "VL" → m.volume ≠ "")
  ∧ (tagOf l = "IS" → m.issue ≠ "")
  ∧ (tagOf l = "AU" → ∃ a ∈ m.authors, a ≠ "")
  ∧ (tagOf l = "SP" → m.sp ≠ "")
  ∧ (tagOf l = "EP" → m.ep ≠ "")
  ∧ (tagOf l = "DO" → m.doi ≠ "")
  ∧ (tagOf l = "UR" → m.url ≠ "")
  ∧ (tagOf l = "AB" → m.abstract ≠ "")
  ∧ (tagOf l = "KW" → ∃ kw ∈ m.keywords, kw ≠ "")

/-- Spec-level statement of the shape of every serialized line: the fixed
tag-line format, with escaping applied exactly on the TI/T2/PB/AU/AB/KW
lines and the raw field value on the PY/VL/IS/SP/EP/DO/UR lines. -/
def risLineShape (m : Meta) (l : String) : Prop :=
  l = "TY  - " ++ (if m.type = "" then "GEN" else m.type)
  ∨ (m.title ≠ "" ∧ l = "TI  - " ++ ris_escape m.title)
  ∨ (m.journal ≠ "" ∧ l = "T2  - " ++ ris_escape m.journal)
  ∨ (m.publisher ≠ "" ∧ l = "PB  - " ++ ris_escape m.publisher)
  ∨ (m.year.getD "" ≠ "" ∧ l = "PY  - " ++ m.year.getD "")
  ∨ (m.volume ≠ "" ∧ l = "VL  - " ++ m.volume)
  ∨ (m.issue ≠ "" ∧ l = "IS  - " ++ m.issue)
  ∨ (∃ a ∈ m.authors, a ≠ "" ∧ l = "AU  - " ++ ris_escape a)
  ∨ (m.sp ≠ "" ∧ l = "SP  - " ++ m.sp)
  ∨ (m.ep ≠ "" ∧ l = "EP  - " ++ m.ep)
  ∨ (m.doi ≠ "" ∧ l = "DO  - " ++ m.doi)
  ∨ (m.url ≠ "" ∧ l = "UR  - " ++ m.url)
  ∨ (m.abstract ≠ "" ∧ l = "AB  - " ++ ris_escape m.abstract)
  ∨ (∃ kw ∈ m.keywords, kw ≠ "" ∧ l = "KW  - " ++ ris_escape kw)
  ∨ l = "ER  - "

/-- Spec-level year extraction from one date field's `date-parts`: the first
(year) component of the first entry, when present and integer-parseable,
rendered as a plain integer string. -/
def yearOfParts (parts : List (List YearVal)) : Option String :=
  match parts with
  | (y :: _) :: _ => (y.toInt?).map (fun n => toString n)
  | _ => none

/-- Spec-level statement of the DOI pattern: `10.`, then 4 to 9 digits, a
slash, and a non-empty run of characters from the class
`[-._;()/:A-Za-z0-9]`. -/
def MatchesDoi (s : List Char) : Prop :=
  ∃ d tok, s = '1' :: '0' :: '.' :: (d ++ '/' :: tok)
    ∧ d.all isDigitCh = true ∧ 4 ≤ d.length ∧ d.length ≤ 9
    ∧ tok ≠ [] ∧ tok.all isDoiTokChar = true

/-- A concrete oracle whose registry lookup echoes the requested DOI into
the returned record, used to exhibit which string the pipeline hands to the
lookup. -/
def c9net : Net where
  fetchByDoi := fun d => .ok { DOI := some d }
  httpGetText := fun _ => .error "no network"
  searchTitle := fun _ => .ok none
  extractPdf := fun _ => .ok ""

/-- A concrete oracle for the batch-isolation witness: DOI lookups succeed
(echoing the DOI), every page fetch raises `timeout`. -/
def c1net : Net where
  fetchByDoi := fun d => .ok { DOI := some d }
  httpGetText := fun _ => .error "timeout"
  searchTitle := fun _ => .ok none
  extractPdf := fun _ => .ok ""

/-! ## Sanity checks: concrete evaluations of the embedded functions. -/

example : to_ris_lines { title := "Test" } = ["TY  - GEN", "TI  - Test", "ER  - "] := by decide

example : to_ris_lines {} = ["TY  - GEN", "ER  - "] := rfl

example : to_ris_lines { volume := "1\n2" } = ["TY  - GEN", "VL  - 1\n2", "ER  - "] := rfl

example : ris_escape "1\n2" = "1 2" := rfl

example : find_doi_in_text "see https://doi.org/10.1000/xyz123 for details" =
    some "10.1000/xyz123" := by decide

example : find_doi_in_text "plain prose, nothing else" = none := by decide

example : find_doi_in_text "10.123/short-prefix" = none := by decide

example : crossref_first_year { issued := [[.jint 2020]] } = some "2020" := rfl

example : crossref_first_year
    { publishedPrint := [[.jnull]], issued := [[.jstr " 1999 "]] } = some "1999" := rfl

example : crossref_first_year { publishedPrint := [[]] , created := [[.jint 5]] } =
    some "5" := rfl

example : pyStrip ⟨stripTags "<jats:p>Hello <i>world</i></jats:p>".data⟩ =
    "Hello  world" := rfl

example : splitPage "100-110" = ("100", "110") := rfl

example : splitPage "100" = ("100", "") := rfl

example : splitPage "" = ("", "") := rfl

example : splitPage "100-110-5" = ("100", "110-5") := rfl

example : (crossref_to_meta { page := some "100-110" }).sp = "100" := rfl

example : (crossref_to_meta { page := some "100-110" }).ep = "110" := rfl

example : (crossref_to_meta { abstract := some "<p>Hi</p>" }).abstract = "<p>Hi</p>" := rfl

example : (crossref_to_meta { abstract := some "<jats:p>Hi</jats:p>" }).abstract = "Hi" := rfl

example : (crossref_to_meta { ctype := some "Journal-Article" }).type = "JOUR" := rfl

example : (crossref_to_meta { ctype := some "weird" }).type = "GEN" := rfl

example : guess_title_from_pdf_text "DOI: 10.1/2\nA Study of Something Interesting\nx" =
    some "A Study of Something Interesting" := by decide

example : guess_title_from_pdf_text "one two three\nshort x y z w" = some "short x y z w" := by decide

example : guess_title_from_pdf_text "Copyright by a b c d e\n" = none := by decide

example : pageTitleGuess "<html><TITLE lang=x>A\n  B</title>rest" = "A B" := by decide

example : pageTitleGuess "<body>no title here</body>" = "" := by decide

/-! ## Helper lemmas about the RIS serializer. -/

theorem mem_emitIf {g line l : String} : l ∈ emitIf g line ↔ g ≠ "" ∧ l = line := by
  unfold emitIf; split <;> simp_all

theorem mem_tagFilterMap {l : String} {as : List String} {f : String → String} :
    l ∈ as.filterMap (fun a => if a = "" then none else some (f a)) ↔
    ∃ a ∈ as, a ≠ "" ∧ l = f a := by
  simp only [List.mem_filterMap, Option.ite_none_left_eq_some]
  constructor
  · rintro ⟨a, ha, hne, h⟩
    exact ⟨a, ha, hne, (Option.some.inj h).symm⟩
  · rintro ⟨a, ha, hne, rfl⟩
    exact ⟨a, ha, hne, rfl⟩

set_option maxHeartbeats 1000000 in
/-- Every line of the front part is a tag line guarded by its (non-empty)
source field — escaped exactly for TI/T2/PB/AU/AB/KW and verbatim for
PY/VL/IS/SP/EP/DO/UR. -/
theorem mem_risFront_shape {m : Meta} {l : String} (hl : l ∈ risFront m) :
    l = "TY  - " ++ (if m.type = "" then "GEN" else m.type)
    ∨ (m.title ≠ "" ∧ l = "TI  - " ++ ris_escape m.title)
    ∨ (m.journal ≠ "" ∧ l = "T2  - " ++ ris_escape m.journal)
    ∨ (m.publisher ≠ "" ∧ l = "PB  - " ++ ris_escape m.publisher)
    ∨ (m.year.getD "" ≠ "" ∧ l = "PY  - " ++ m.year.getD "")
    ∨ (m.volume ≠ "" ∧ l = "VL  - " ++ m.volume)
    ∨ (m.issue ≠ "" ∧ l = "IS  - " ++ m.issue)
    ∨ (∃ a ∈ m.authors, a ≠ "" ∧ l = "AU  - " ++ ris_escape a)
    ∨ (m.sp ≠ "" ∧ l = "SP  - " ++ m.sp)
    ∨ (m.ep ≠ "" ∧ l = "EP  - " ++ m.ep)
    ∨ (m.doi ≠ "" ∧ l = "DO  - " ++ m.doi)
    ∨ (m.url ≠ "" ∧ l = "UR  - " ++ m.url)
    ∨ (m.abstract ≠ "" ∧ l = "AB  - " ++ ris_escape m.abstract)
    ∨ (∃ kw ∈ m.keywords, kw ≠ "" ∧ l = "KW  - " ++ ris_escape kw) := by
  simp only [risFront, List.append_assoc, List.mem_append, List.mem_singleton,
    mem_emitIf, mem_tagFilterMap] at hl
  exact hl

/-- Every line of `to_ris_lines m` is a front tag line or the end-of-record
marker. -/
theorem mem_to_ris_shape {m : Meta} {l : String} (hl : l ∈ to_ris_lines m) :
    l = "TY  - " ++ (if m.type = "" then "GEN" else m.type)
    ∨ (m.title ≠ "" ∧ l = "TI  - " ++ ris_escape m.title)
    ∨ (m.journal ≠ "" ∧ l = "T2  - " ++ ris_escape m.journal)
    ∨ (m.publisher ≠ "" ∧ l = "PB  - " ++ ris_escape m.publisher)
    ∨ (m.year.getD "" ≠ "" ∧ l = "PY  - " ++ m.year.getD "")
    ∨ (m.volume ≠ "" ∧ l = "VL  - " ++ m.volume)
    ∨ (m.issue ≠ "" ∧ l = "IS  - " ++ m.issue)
    ∨ (∃ a ∈ m.authors, a ≠ "" ∧ l = "AU  - " ++ ris_escape a)
    ∨ (m.sp ≠ "" ∧ l = "SP  - " ++ m.sp)
    ∨ (m.ep ≠ "" ∧ l = "EP  - " ++ m.ep)
    ∨ (m.doi ≠ "" ∧ l = "DO  - " ++ m.doi)
    ∨ (m.url ≠ "" ∧ l = "UR  - " ++ m.url)
    ∨ (m.abstract ≠ "" ∧ l = "AB  - " ++ ris_escape m.abstract)
    ∨ (∃ kw ∈ m.keywords, kw ≠ "" ∧ l = "KW  - " ++ ris_escape kw)
    ∨ l = "ER  - " := by
  unfold to_ris_lines at hl
  rcases List.mem_append.mp hl with h | h
  · have hs := mem_risFront_shape h
    exact hs.imp id (Or.imp id (Or.imp id (Or.imp id (Or.imp id (Or.imp id
      (Or.imp id (Or.imp id (Or.imp id (Or.imp id (Or.imp id (Or.imp id
      (Or.imp id Or.inl))))))))))))
  · simp only [List.mem_singleton] at h
    exact Or.inr (Or.inr (Or.inr (Or.inr (Or.inr (Or.inr (Or.inr (Or.inr
      (Or.inr (Or.inr (Or.inr (Or.inr (Or.inr (Or.inr h)))))))))))))

theorem tagOf_TY (s : String) : tagOf ("TY  - " ++ s) = "TY" := rfl
theorem tagOf_TI (s : String) : tagOf ("TI  - " ++ s) = "TI" := rfl
theorem tagOf_T2 (s : String) : tagOf ("T2  - " ++ s) = "T2" := rfl
theorem tagOf_PB (s : String) : tagOf ("PB  - " ++ s) = "PB" := rfl
theorem tagOf_PY (s : String) : tagOf ("PY  - " ++ s) = "PY" := rfl
theorem tagOf_VL (s : String) : tagOf ("VL  - " ++ s) = "VL" := rfl
theorem tagOf_IS (s : String) : tagOf ("IS  - " ++ s) = "IS" := rfl
theorem tagOf_AU (s : String) : tagOf ("AU  - " ++ s) = "AU" := rfl
theorem tagOf_SP (s : String) : tagOf ("SP  - " ++ s) = "SP" := rfl
theorem tagOf_EP (s : String) : tagOf ("EP  - " ++ s) = "EP" := rfl
theorem tagOf_DO (s : String) : tagOf ("DO  - " ++ s) = "DO" := rfl
theorem tagOf_UR (s : String) : tagOf ("UR  - " ++ s) = "UR" := rfl
theorem tagOf_AB (s : String) : tagOf ("AB  - " ++ s) = "AB" := rfl
theorem tagOf_KW (s : String) : tagOf ("KW  - " ++ s) = "KW" := rfl
theorem tagOf_ER_marker : tagOf "ER  - " = "ER" := rfl

/-- No line of the front part is the end-of-record marker. -/
theorem ER_not_mem_risFront (m : Meta) : "ER  - " ∉ risFront m := by
  intro h
  rcases mem_risFront_shape h with h | h | h | h | h | h | h | h | h | h | h | h | h | h
  · have := congrArg tagOf h
    rw [tagOf_ER_marker, tagOf_TY] at this
    simp at this
  · have := congrArg tagOf h.2
    rw [tagOf_ER_marker, tagOf_TI] at this
    simp at this
  · have := congrArg tagOf h.2
    rw [tagOf_ER_marker, tagOf_T2] at this
    simp at this
  · have := congrArg tagOf h.2
    rw [tagOf_ER_marker, tagOf_PB] at this
    simp at this
  · have := congrArg tagOf h.2
    rw [tagOf_ER_marker, tagOf_PY] at this
    simp at this
  · have := congrArg tagOf h.2
    rw [tagOf_ER_marker, tagOf_VL] at this
    simp at this
  · have := congrArg tagOf h.2
    rw [tagOf_ER_marker, tagOf_IS] at this
    simp at this
  · obtain ⟨a, _, _, h⟩ := h
    have := congrArg tagOf h
    rw [tagOf_ER_marker, tagOf_AU] at this
    simp at this
  · have := congrArg tagOf h.2
    rw [tagOf_ER_marker, tagOf_SP] at this
    simp at this
  · have := congrArg tagOf h.2
    rw [tagOf_ER_marker, tagOf_EP] at this
    simp at this
  · have := congrArg tagOf h.2
    rw [tagOf_ER_marker, tagOf_DO] at this
    simp at this
  · have := congrArg tagOf h.2
    rw [tagOf_ER_marker, tagOf_UR] at this
    simp at this
  · have := congrArg tagOf h.2
    rw [tagOf_ER_marker, tagOf_AB] at this
    simp at this
  · obtain ⟨kw, _, _, h⟩ := h
    have := congrArg tagOf h
    rw [tagOf_ER_marker, tagOf_KW] at this
    simp at this

/-- Every emitted tag line's source field is non-empty. -/
theorem noEmptyTag_of_mem {m : Meta} {l : String} (hl : l ∈ to_ris_lines m) :
    noEmptyTagAt m l := by
  unfold noEmptyTagAt
  rcases mem_to_ris_shape hl with h | h | h | h | h | h | h | h | h | h | h | h | h | h | h
  · subst h
    refine ⟨?_, ?_, ?_, ?_, ?_, ?_, ?_, ?_, ?_, ?_, ?_, ?_, ?_⟩ <;> intro htag <;>
      rw [tagOf_TY] at htag <;> simp at htag
  · obtain ⟨hg, rfl⟩ := h
    refine ⟨?_, ?_, ?_, ?_, ?_, ?_, ?_, ?_, ?_, ?_, ?_, ?_, ?_⟩ <;> intro htag <;>
      rw [tagOf_TI] at htag <;> first | exact hg | simp at htag
  · obtain ⟨hg, rfl⟩ := h
    refine ⟨?_, ?_, ?_, ?_, ?_, ?_, ?_, ?_, ?_, ?_, ?_, ?_, ?_⟩ <;> intro htag <;>
      rw [tagOf_T2] at htag <;> first | exact hg | simp at htag
  · obtain ⟨hg, rfl⟩ := h
    refine ⟨?_, ?_, ?_, ?_, ?_, ?_, ?_, ?_, ?_, ?_, ?_, ?_, ?_⟩ <;> intro htag <;>
      rw [tagOf_PB] at htag <;> first | exact hg | simp at htag
  · obtain ⟨hg, rfl⟩ := h
    refine ⟨?_, ?_, ?_, ?_, ?_, ?_, ?_, ?_, ?_, ?_, ?_, ?_, ?_⟩ <;> intro htag <;>
      rw [tagOf_PY] at htag <;> first | exact hg | simp at htag
  · obtain ⟨hg, rfl⟩ := h
    refine ⟨?_, ?_, ?_, ?_, ?_, ?_, ?_, ?_, ?_, ?_, ?_, ?_, ?_⟩ <;> intro htag <;>
      rw [tagOf_VL] at htag <;> first | exact hg | simp at htag
  · obtain ⟨hg, rfl⟩ := h
    refine ⟨?_, ?_, ?_, ?_, ?_, ?_, ?_, ?_, ?_, ?_, ?_, ?_, ?_⟩ <;> intro htag <;>
      rw [tagOf_IS] at htag <;> first | exact hg | simp at htag
  · obtain ⟨a, ha, hg, rfl⟩ := h
    refine ⟨?_, ?_, ?_, ?_, ?_, ?_, ?_, ?_, ?_, ?_, ?_, ?_, ?_⟩ <;> intro htag <;>
      rw [tagOf_AU] at htag <;> first | exact ⟨a, ha, hg⟩ | simp at htag
  · obtain ⟨hg, rfl⟩ := h
    refine ⟨?_, ?_, ?_, ?_, ?_, ?_, ?_, ?_, ?_, ?_, ?_, ?_, ?_⟩ <;> intro htag <;>
      rw [tagOf_SP] at htag <;> first | exact hg | simp at htag
  · obtain ⟨hg, rfl⟩ := h
    refine ⟨?_, ?_, ?_, ?_, ?_, ?_, ?_, ?_, ?_, ?_, ?_, ?_, ?_⟩ <;> intro htag <;>
      rw [tagOf_EP] at htag <;> first | exact hg | simp at htag
  · obtain ⟨hg, rfl⟩ := h
    refine ⟨?_, ?_, ?_, ?_, ?_, ?_, ?_, ?_, ?_, ?_, ?_, ?_, ?_⟩ <;> intro htag <;>
      rw [tagOf_DO] at htag <;> first | exact hg | simp at htag
  · obtain ⟨hg, rfl⟩ := h
    refine ⟨?_, ?_, ?_, ?_, ?_, ?_, ?_, ?_, ?_, ?_, ?_, ?_, ?_⟩ <;> intro htag <;>
      rw [tagOf_UR] at htag <;> first | exact hg | simp at htag
  · obtain ⟨hg, rfl⟩ := h
    refine ⟨?_, ?_, ?_, ?_, ?_, ?_, ?_, ?_, ?_, ?_, ?_, ?_, ?_⟩ <;> intro htag <;>
      rw [tagOf_AB] at htag <;> first | exact hg | simp at htag
  · obtain ⟨kw, hkw, hg, rfl⟩ := h
    refine ⟨?_, ?_, ?_, ?_, ?_, ?_, ?_, ?_, ?_, ?_, ?_, ?_, ?_⟩ <;> intro htag <;>
      rw [tagOf_KW] at htag <;> first | exact ⟨kw, hkw, hg⟩ | simp at htag
  · subst h
    refine ⟨?_, ?_, ?_, ?_, ?_, ?_, ?_, ?_, ?_, ?_, ?_, ?_, ?_⟩ <;> intro htag <;>
      rw [tagOf_ER_marker] at htag <;> simp at htag

/-! ## Claim C2. -/

/-- Claim C2, counterexample: serializing the record whose only non-empty
field is `title = "Test"` does not yield two lines — the output has three
lines (`TY  - GEN`, `TI  - Test`, `ER  - `). -/
theorem ris_single_title_two_lines_cex :
    (to_ris_lines { title := "Test" }).length ≠ 2
    ∧ to_ris_lines { title := "Test" } = ["TY  - GEN", "TI  - Test", "ER  - "] := by
  decide

/-- Claim C2 (amended): serializing a record whose only non-empty field is
`title = "Test"` yields exactly the three lines `TY  - GEN`, `TI  - Test`,
`ER  - `; more generally the type line is always emitted first (defaulting
to GEN) and no tag line is ever emitted for an empty or absent field. -/
theorem ris_single_title_serialization :
    to_ris_lines { title := "Test" } = ["TY  - GEN", "TI  - Test", "ER  - "]
    ∧ (to_ris_lines { title := "Test" }).length = 3
    ∧ (∀ m : Meta, (to_ris_lines m).head? =
        some ("TY  - " ++ (if m.type = "" then "GEN" else m.type)))
    ∧ (∀ m : Meta, ∀ l ∈ to_ris_lines m, noEmptyTagAt m l) :=
  ⟨by decide, by decide, fun _ => rfl, fun _ _ hl => noEmptyTag_of_mem hl⟩

/-- Witness for claim C2's theorem at a concrete record and line. -/
theorem ris_single_title_serialization_witness :
    noEmptyTagAt { doi := "10.1/x" } "DO  - 10.1/x" :=
  ris_single_title_serialization.2.2.2 { doi := "10.1/x" } "DO  - 10.1/x" (by decide)

/-! ## Claim C3. -/

/-- Claim C3, counterexample: the `VL` line of the record with
`volume = "1\n2"` carries the raw, unescaped value — it contains an embedded
newline and differs from the escaped form. -/
theorem ris_tagline_escape_cex :
    to_ris_lines { volume := "1\n2" } = ["TY  - GEN", "VL  - 1\n2", "ER  - "]
    ∧ "VL  - 1\n2" ≠ "VL  - " ++ ris_escape "1\n2"
    ∧ '\n' ∈ "VL  - 1\n2".data := by
  decide

/-- Claim C3 (amended): every line emitted by the serializer is the
2-character uppercase tag, two spaces, a hyphen, a space, then the value —
where the value is the escaped field (newlines replaced by a space, then
trimmed) exactly for the TI/T2/PB/AU/AB/KW lines, and the raw field value
for the PY/VL/IS/SP/EP/DO/UR lines. -/
theorem ris_tagline_shape :
    ∀ (m : Meta), ∀ l ∈ to_ris_lines m, risLineShape m l := by
  intro m l hl
  unfold risLineShape
  exact mem_to_ris_shape hl

/-- Witness for claim C3's theorem at a concrete record and line. -/
theorem ris_tagline_shape_witness :
    risLineShape { title := "Test" } "TI  - Test" :=
  ris_tagline_shape { title := "Test" } "TI  - Test" (by decide)

/-! ## Claim C10. -/

/-- Claim C10: for every record — including one with every field empty — the
serialized block is non-empty, starts with the `TY` line, ends with exactly
`ER  - `, has at least two lines, and contains exactly one end-of-record
marker. -/
theorem ris_record_envelope (m : Meta) :
    to_ris_lines m ≠ []
    ∧ (to_ris_lines m).head? =
        some ("TY  - " ++ (if m.type = "" then "GEN" else m.type))
    ∧ (to_ris_lines m).getLast? = some "ER  - "
    ∧ 2 ≤ (to_ris_lines m).length
    ∧ (to_ris_lines m).count "ER  - " = 1 := by
  refine ⟨?_, rfl, List.getLast?_concat _, ?_, ?_⟩
  · intro h
    have : ("ER  - " : String) ∈ to_ris_lines m := by
      unfold to_ris_lines
      exact List.mem_append.mpr (Or.inr (List.mem_singleton.mpr rfl))
    rw [h] at this
    exact List.not_mem_nil _ this
  · unfold to_ris_lines risFront
    simp only [List.length_append, List.length_singleton, List.length_cons,
      List.length_nil]
    omega
  · unfold to_ris_lines
    rw [List.count_append, List.count_eq_zero.mpr (ER_not_mem_risFront m)]
    rfl

/-! ## Claim C4. -/

/-- Claim C4, counterexample: the raw abstract `<p>Hello world</p>` begins
with a markup tag opening, yet normalization passes it through unchanged —
tags are stripped only for abstracts starting with `<jats:`. -/
theorem abstract_markup_strip_cex :
    (crossref_to_meta { abstract := some "<p>Hello world</p>" }).abstract
      = "<p>Hello world</p>"
    ∧ pyStartsWith "<p>Hello world</p>" "<" = true
    ∧ pyStrip ⟨stripTags "<p>Hello world</p>".data⟩ = "Hello world"
    ∧ "<p>Hello world</p>" ≠ "Hello world" := by
  decide

/-- Claim C4 (amended): the trimmed abstract has its `<...>` tag spans
stripped (and the result trimmed) exactly when it starts with the literal
prefix `<jats:`; any other abstract — including one starting with a
different markup tag — is passed through trimmed. -/
theorem abstract_jats_only_strip :
    (∀ msg : CrossrefMsg, (crossref_to_meta msg).abstract =
      (if pyStartsWith (clean msg.abstract) "<jats:"
       then pyStrip ⟨stripTags (clean msg.abstract).data⟩
       else clean msg.abstract))
    ∧ (crossref_to_meta
        { abstract := some " <jats:p>Hello <b>world</b></jats:p> " }).abstract
        = "Hello  world"
    ∧ (crossref_to_meta { abstract := some "  plain text  " }).abstract
        = "plain text" :=
  ⟨fun _ => rfl, by decide, by decide⟩

/-! ## Claim C5. -/

/-- The key loop of `crossref_first_year` is a first-some search over the
date fields. -/
theorem yearLoop_eq_findSome? (l : List (List (List YearVal))) :
    yearLoop l = l.findSome? yearOfParts := by
  induction l with
  | nil => rfl
  | cons p rest ih =>
    rcases p with _ | ⟨e, p'⟩
    · rw [List.findSome?_cons]
      simpa [yearOfParts, yearLoop] using ih
    · rcases e with _ | ⟨y, e'⟩
      · rw [List.findSome?_cons]
        simpa [yearOfParts, yearLoop] using ih
      · rw [List.findSome?_cons]
        rcases h : y.toInt? with _ | n
        · simpa [yearOfParts, yearLoop, h] using ih
        · simp [yearOfParts, yearLoop, h]

/-- Claim C5: the normalized year is found by inspecting `published-print`,
`issued`, `created`, `published-online` in that order, taking the first
field whose non-empty first date-parts entry has an integer-parseable first
component, rendered as a plain integer string; absent when no field
qualifies.  The concrete cases exercise the precedence, the skipping of an
unparseable or empty entry, and the absent case. -/
theorem crossref_year_precedence :
    (∀ msg : CrossrefMsg, crossref_first_year msg =
      [msg.publishedPrint, msg.issued, msg.created,
       msg.publishedOnline].findSome? yearOfParts)
    ∧ crossref_first_year
        { publishedPrint := [[.jint 2001]], issued := [[.jint 1999]] } = some "2001"
    ∧ crossref_first_year
        { publishedPrint := [[.jstr "n/a"]], issued := [[.jint 1999]] } = some "1999"
    ∧ crossref_first_year { publishedPrint := [[]], created := [[.jint 2007]] }
        = some "2007"
    ∧ crossref_first_year { } = none
    ∧ crossref_first_year
        { created := [[.jstr " 2020 "]] } = some "2020" :=
  ⟨fun _ => yearLoop_eq_findSome? _, rfl, rfl, rfl, rfl, rfl⟩

/-! ## Claim C6. -/

/-- A first-some search over mapped elements is a first-match search over
the mapped list. -/
theorem findSome?_strip_eq_find? {α β : Type} (f : α → β) (p : β → Bool)
    (l : List α) :
    l.findSome? (fun x => if p (f x) then some (f x) else none)
      = (l.map f).find? p := by
  induction l with
  | nil => rfl
  | cons a t ih =>
    rw [List.findSome?_cons, List.map_cons, List.find?_cons]
    rcases h : p (f a) with _ | _ <;> simp [h, ih]

/-- Claim C6: `guessTitle` returns the first stripped line with at least 4
whitespace tokens, no excluded case-insensitive prefix, and length between
10 and 200; on the given 3-line text it returns line 2 exactly. -/
theorem guess_title_first_qualifying :
    (∀ text : String, guess_title_from_pdf_text text =
      ((pySplitlines text).map pyStrip).find? qualifiesTitleLine)
    ∧ guess_title_from_pdf_text "DOI: 10.1/2\nA Study of Something Interesting\nx"
        = some "A Study of Something Interesting"
    ∧ qualifiesTitleLine "A Study of Something Interesting" = true
    ∧ qualifiesTitleLine "DOI: 10.1/2" = false
    ∧ qualifiesTitleLine "x" = false :=
  ⟨fun text => findSome?_strip_eq_find? pyStrip qualifiesTitleLine (pySplitlines text),
   by decide, by decide, by decide, by decide⟩

/-! ## Claim C8 helpers: trimming is idempotent, and `breakAtChar` splits at
the first occurrence. -/

theorem dropWhile_eq_self_of_head {α : Type} (p : α → Bool) (l : List α)
    (h : ∀ x ∈ l.head?, p x = false) : l.dropWhile p = l := by
  cases l with
  | nil => rfl
  | cons c t =>
    have hc := h c (by simp)
    simp [List.dropWhile_cons, hc]

theorem getLast?_dropWhile_of_ne_nil {α : Type} (p : α → Bool) (l : List α)
    (h : l.dropWhile p ≠ []) : (l.dropWhile p).getLast? = l.getLast? := by
  conv_rhs => rw [← List.takeWhile_append_dropWhile p l]
  rw [List.getLast?_append]
  rcases hd : (l.dropWhile p).getLast? with _ | x
  · exact absurd (List.getLast?_eq_none_iff.mp hd) h
  · rfl

theorem pyStripL_head_not_space (l : List Char) :
    ∀ x ∈ (pyStripL l).head?, isPySpace x = false := by
  intro x hx
  unfold pyStripL at hx
  rw [List.head?_reverse] at hx
  rcases hne : (l.dropWhile isPySpace).reverse.dropWhile isPySpace with _ | ⟨c, t⟩
  · rw [hne] at hx
    simp at hx
  · have h1 : (l.dropWhile isPySpace).reverse.dropWhile isPySpace ≠ [] := by
      rw [hne]; simp
    rw [getLast?_dropWhile_of_ne_nil _ _ h1, List.getLast?_reverse] at hx
    have h2 := List.head?_dropWhile_not isPySpace l
    rcases hh : (l.dropWhile isPySpace).head? with _ | y
    · rw [hh] at hx; simp at hx
    · rw [hh] at hx h2
      simp at hx
      exact hx ▸ h2

theorem pyStripL_getLast_not_space (l : List Char) :
    ∀ x ∈ (pyStripL l).getLast?, isPySpace x = false := by
  intro x hx
  unfold pyStripL at hx
  rw [List.getLast?_reverse] at hx
  have h2 := List.head?_dropWhile_not isPySpace (l.dropWhile isPySpace).reverse
  rcases hh : ((l.dropWhile isPySpace).reverse.dropWhile isPySpace).head? with _ | y
  · rw [hh] at hx; simp at hx
  · rw [hh] at hx h2
    simp at hx
    exact hx ▸ h2

theorem pyStripL_idem (l : List Char) : pyStripL (pyStripL l) = pyStripL l := by
  have h1 : (pyStripL l).dropWhile isPySpace = pyStripL l :=
    dropWhile_eq_self_of_head _ _ (pyStripL_head_not_space l)
  have h2 : (pyStripL l).reverse.dropWhile isPySpace = (pyStripL l).reverse := by
    refine dropWhile_eq_self_of_head _ _ ?_
    intro x hx
    rw [List.head?_reverse] at hx
    exact pyStripL_getLast_not_space l x hx
  conv_lhs => rw [pyStripL, h1, h2, List.reverse_reverse]

theorem pyStrip_idem (s : String) : pyStrip (pyStrip s) = pyStrip s :=
  congrArg String.mk (pyStripL_idem s.data)

theorem breakAtChar_eq_none {c : Char} {l : List Char} :
    breakAtChar c l = none ↔ c ∉ l := by
  induction l with
  | nil => simp [breakAtChar]
  | cons a t ih =>
    by_cases h : a = c
    · subst h
      simp [breakAtChar]
    · simp only [breakAtChar, if_neg h, Option.map_eq_none', ih, List.mem_cons]
      constructor
      · intro hn hc
        rcases hc with hc | hc
        · exact h hc.symm
        · exact hn hc
      · intro hn
        exact fun hc => hn (Or.inr hc)

theorem breakAtChar_first {c : Char} {b a : List Char} (hb : c ∉ b) :
    breakAtChar c (b ++ c :: a) = some (b, a) := by
  induction b with
  | nil => simp [breakAtChar]
  | cons x t ih =>
    have hx : ¬ x = c := fun h => hb (h ▸ List.mem_cons_self _ _)
    have ht : c ∉ t := fun h => hb (List.mem_cons_of_mem _ h)
    simp [breakAtChar, hx, ih ht]

/-! ## Claim C8. -/

/-- Claim C8: the combined page field is split on its first hyphen into
start/end pages; with no hyphen the whole (cleaned) value is the start page
and the end page is empty; with the field absent both are empty.  The
concrete cases are `"100-110"`, `"100"` and the absent field. -/
theorem page_split_first_hyphen :
    (∀ msg : CrossrefMsg, msg.page = none →
      (crossref_to_meta msg).sp = "" ∧ (crossref_to_meta msg).ep = "")
    ∧ (∀ msg : CrossrefMsg, '-' ∉ (clean msg.page).data →
      (crossref_to_meta msg).sp = clean msg.page ∧ (crossref_to_meta msg).ep = "")
    ∧ (∀ msg : CrossrefMsg, ∀ b a : List Char,
        (clean msg.page).data = b ++ '-' :: a → '-' ∉ b →
        (crossref_to_meta msg).sp = pyStrip ⟨b⟩
        ∧ (crossref_to_meta msg).ep = pyStrip ⟨a⟩)
    ∧ (crossref_to_meta { page := some "100-110" }).sp = "100"
    ∧ (crossref_to_meta { page := some "100-110" }).ep = "110"
    ∧ (crossref_to_meta { page := some "100" }).sp = "100"
    ∧ (crossref_to_meta { page := some "100" }).ep = ""
    ∧ (crossref_to_meta { }).sp = "" ∧ (crossref_to_meta { }).ep = "" := by
  refine ⟨?_, ?_, ?_, rfl, rfl, rfl, rfl, rfl, rfl⟩
  · intro msg h
    have hsp : (crossref_to_meta msg).sp = (splitPage (clean msg.page)).1 := rfl
    have hep : (crossref_to_meta msg).ep = (splitPage (clean msg.page)).2 := rfl
    rw [hsp, hep, h]
    exact ⟨rfl, rfl⟩
  · intro msg h
    have hsp : (crossref_to_meta msg).sp = (splitPage (clean msg.page)).1 := rfl
    have hep : (crossref_to_meta msg).ep = (splitPage (clean msg.page)).2 := rfl
    rw [hsp, hep]
    unfold splitPage
    by_cases hp : clean msg.page = ""
    · simp [hp]
    · rw [if_pos hp, breakAtChar_eq_none.mpr h]
      have : pyStrip (clean msg.page) = clean msg.page := pyStrip_idem _
      exact ⟨this, rfl⟩
  · intro msg b a hdata hb
    have hsp : (crossref_to_meta msg).sp = (splitPage (clean msg.page)).1 := rfl
    have hep : (crossref_to_meta msg).ep = (splitPage (clean msg.page)).2 := rfl
    have hne : clean msg.page ≠ "" := by
      intro h
      rw [h] at hdata
      exact List.cons_ne_nil _ _ (List.append_eq_nil.mp hdata.symm).2
    rw [hsp, hep]
    unfold splitPage
    rw [if_pos hne, hdata, breakAtChar_first hb]
    exact ⟨rfl, rfl⟩

/-- Witness for claim C8's theorem: the first-hyphen split at the concrete
page value `100-110`. -/
theorem page_split_first_hyphen_witness :
    (crossref_to_meta { page := some "100-110" }).sp = pyStrip "100"
    ∧ (crossref_to_meta { page := some "100-110" }).ep = pyStrip "110" :=
  page_split_first_hyphen.2.2.1 { page := some "100-110" } "100".data "110".data
    (by decide) (by decide)

/-! ## Claim C7 helpers: correctness of the DOI scanner. -/

/-- A successful anchored match returns a pattern-shaped prefix of its input,
and the remainder cannot extend the trailing class run. -/
theorem doiMatchAt_sound {l r : List Char} (h : doiMatchAt l = some r) :
    MatchesDoi r ∧ ∃ rest, l = r ++ rest ∧ ∀ c ∈ rest.head?, isDoiTokChar c = false := by
  rcases l with _ | ⟨c1, _ | ⟨c2, _ | ⟨c3, rest⟩⟩⟩
  · simp [doiMatchAt] at h
  · simp [doiMatchAt] at h
  · simp [doiMatchAt] at h
  · simp only [doiMatchAt] at h
    split_ifs at h with h123 hlen
    obtain ⟨rfl, rfl, rfl⟩ := h123
    rcases hd : rest.dropWhile isDigitCh with _ | ⟨c4, rest3⟩ <;> rw [hd] at h
    · simp at h
    · dsimp only at h
      split_ifs at h with hc4 htok
      subst hc4
      obtain rfl := Option.some.inj h
      constructor
      · exact ⟨rest.takeWhile isDigitCh, rest3.takeWhile isDoiTokChar, rfl,
          List.all_takeWhile, hlen.1, hlen.2,
          by simpa [List.isEmpty_iff] using htok, List.all_takeWhile⟩
      · refine ⟨rest3.dropWhile isDoiTokChar, ?_, ?_⟩
        · have h1 : rest = rest.takeWhile isDigitCh ++ ('/' :: rest3) := by
            conv_lhs => rw [← List.takeWhile_append_dropWhile isDigitCh rest, hd]
          have h2 : rest3
              = rest3.takeWhile isDoiTokChar ++ rest3.dropWhile isDoiTokChar :=
            (List.takeWhile_append_dropWhile isDoiTokChar rest3).symm
          conv_lhs => rw [h1]
          conv_lhs => rw [h2]
          simp
        · intro c hc
          have h3 := List.head?_dropWhile_not isDoiTokChar rest3
          rcases hh : (rest3.dropWhile isDoiTokChar).head? with _ | y
          · rw [hh] at hc; simp at hc
          · rw [hh] at hc h3
            simp at hc
            exact hc ▸ h3

/-- A pattern-shaped list produces an anchored match, whatever follows it. -/
theorem doiMatchAt_of_matches {s : List Char} (h : MatchesDoi s) (post : List Char) :
    (doiMatchAt (s ++ post)).isSome = true := by
  obtain ⟨d, tok, rfl, hall, h4, h9, htne, htall⟩ := h
  have hdig : ∀ a ∈ d, isDigitCh a = true := fun a ha => by
    have := List.all_eq_true.mp hall a ha
    simpa using this
  have harr : ('1' :: '0' :: '.' :: (d ++ '/' :: tok)) ++ post
      = '1' :: '0' :: '.' :: (d ++ '/' :: (tok ++ post)) := by simp
  have htake : (d ++ '/' :: (tok ++ post)).takeWhile isDigitCh = d := by
    rw [List.takeWhile_append_of_pos hdig]
    simp [List.takeWhile_cons, isDigitCh]
  have hdrop : (d ++ '/' :: (tok ++ post)).dropWhile isDigitCh = '/' :: (tok ++ post) := by
    rw [List.dropWhile_append_of_pos hdig]
    simp [List.dropWhile_cons, isDigitCh]
  rw [harr]
  simp only [doiMatchAt, htake, hdrop]
  rw [if_pos ⟨trivial, trivial, trivial⟩, if_pos ⟨h4, h9⟩, if_pos trivial]
  rcases tok with _ | ⟨t0, tok'⟩
  · exact absurd rfl htne
  · have ht0 : isDoiTokChar t0 = true := by
      have := List.all_eq_true.mp htall t0 (List.mem_cons_self _ _)
      simpa using this
    rw [List.cons_append]
    simp [List.takeWhile_cons, ht0]

/-- If the scan of `x ++ y` fails then so does the scan of the suffix `y`. -/
theorem doiSearch_append_none {x y : List Char} (h : doiSearch (x ++ y) = none) :
    doiSearch y = none := by
  induction x with
  | nil => exact h
  | cons c t ih =>
    rw [List.cons_append] at h
    unfold doiSearch at h
    rcases hm : doiMatchAt (c :: (t ++ y)) with _ | r <;> rw [hm] at h
    · exact ih (by simpa [Option.orElse] using h)
    · simp [Option.orElse] at h

/-- A failed scan means in particular no anchored match at the head. -/
theorem doiMatchAt_none_of_search_none {l : List Char} (h : doiSearch l = none) :
    doiMatchAt l = none := by
  cases l with
  | nil => rfl
  | cons c t =>
    unfold doiSearch at h
    rcases hm : doiMatchAt (c :: t) with _ | r
    · rfl
    · rw [hm] at h
      simp [Option.orElse] at h

/-- A successful scan decomposes its input at the first position where an
anchored match succeeds. -/
theorem doiSearch_some_decomp {l r : List Char} (h : doiSearch l = some r) :
    ∃ pre rest, l = pre ++ rest ∧ doiMatchAt rest = some r
      ∧ ∀ pre2 rest2, l = pre2 ++ rest2 → pre2.length < pre.length →
          doiMatchAt rest2 = none := by
  induction l with
  | nil => simp [doiSearch] at h
  | cons c t ih =>
    rcases hm : doiMatchAt (c :: t) with _ | r'
    · have h' : doiSearch t = some r := by
        unfold doiSearch at h
        rw [hm] at h
        simpa [Option.orElse] using h
      obtain ⟨pre, rest, heq, hmt, hmin⟩ := ih h'
      refine ⟨c :: pre, rest, by rw [List.cons_append, heq], hmt, ?_⟩
      intro pre2 rest2 he hlt
      rcases pre2 with _ | ⟨c2, pre2'⟩
      · simp only [List.nil_append] at he
        rw [← he]
        exact hm
      · rw [List.cons_append] at he
        injection he with h1 h2
        simp only [List.length_cons] at hlt
        exact hmin pre2' rest2 h2 (by omega)
    · have hr : r' = r := by
        unfold doiSearch at h
        rw [hm] at h
        simpa [Option.orElse] using h
      subst hr
      refine ⟨[], c :: t, rfl, hm, ?_⟩
      intro pre2 rest2 _ hlt
      simp at hlt

/-! ## Claim C7. -/

/-- Claim C7: `find_doi_in_text` returns the leftmost substring matching the
DOI pattern (`10.`, 4–9 digits, `/`, then a non-empty maximal run of
characters from the class), or absent when no substring of the text matches;
on the given example it returns `10.1000/xyz123`. -/
theorem find_doi_leftmost_match :
    find_doi_in_text "see https://doi.org/10.1000/xyz123 for details"
      = some "10.1000/xyz123"
    ∧ (∀ t s : String, find_doi_in_text t = some s →
        MatchesDoi s.data
        ∧ ∃ pre post, t.data = pre ++ s.data ++ post
          ∧ (∀ c ∈ post.head?, isDoiTokChar c = false)
          ∧ (∀ pre2 s2 post2, t.data = pre2 ++ s2 ++ post2 → MatchesDoi s2 →
              pre.length ≤ pre2.length))
    ∧ (∀ t : String, find_doi_in_text t = none →
        ∀ pre s post, t.data = pre ++ s ++ post → ¬ MatchesDoi s) := by
  refine ⟨by decide, ?_, ?_⟩
  · intro t s h
    unfold find_doi_in_text at h
    rcases ho : doiSearch t.data with _ | r <;> rw [ho] at h
    · simp at h
    · simp only [Option.map_some'] at h
      obtain rfl := Option.some.inj h
      obtain ⟨pre, rest, heq, hmt, hmin⟩ := doiSearch_some_decomp ho
      obtain ⟨hmd, rest', hrest, hhead⟩ := doiMatchAt_sound hmt
      refine ⟨hmd, pre, rest', by rw [heq, hrest, List.append_assoc], hhead, ?_⟩
      intro pre2 s2 post2 he hm2
      by_contra hlt
      push_neg at hlt
      have hnone := hmin pre2 (s2 ++ post2) (by rw [he, List.append_assoc]) hlt
      have hsome := doiMatchAt_of_matches hm2 post2
      rw [hnone] at hsome
      simp at hsome
  · intro t h pre s post he hm
    unfold find_doi_in_text at h
    have hnone : doiSearch t.data = none := by
      rcases ho : doiSearch t.data with _ | r
      · rfl
      · rw [ho] at h
        simp at h
    rw [he, List.append_assoc] at hnone
    have h2 := doiSearch_append_none hnone
    have hsome := doiMatchAt_of_matches hm post
    rw [doiMatchAt_none_of_search_none h2] at hsome
    simp at hsome

/-- Witness for claim C7's theorem: the shape, occurrence and leftmostness
facts at the concrete example text. -/
theorem find_doi_leftmost_match_witness :
    MatchesDoi ("10.1000/xyz123" : String).data
    ∧ ∃ pre post,
        ("see https://doi.org/10.1000/xyz123 for details" : String).data
          = pre ++ ("10.1000/xyz123" : String).data ++ post
        ∧ (∀ c ∈ post.head?, isDoiTokChar c = false)
        ∧ (∀ pre2 s2 post2,
            ("see https://doi.org/10.1000/xyz123 for details" : String).data
              = pre2 ++ s2 ++ post2 → MatchesDoi s2 →
            pre.length ≤ pre2.length) :=
  find_doi_leftmost_match.2.1 "see https://doi.org/10.1000/xyz123 for details"
    "10.1000/xyz123" (by decide)

/-! ## Claim C9. -/

/-- Claim C9: when the DOI pattern matches anywhere inside a batch list
line, the item takes the direct-DOI branch — the outcome depends only on
`fetchByDoi` applied to the whole line, the success route is `doi`, and the
string handed to the registry lookup is the entire line, not the matched
substring; the URL strategy is taken exactly for lines with no DOI-pattern
match. -/
theorem batch_item_doi_route_whole_line :
    (∀ (net : Net) (item : String), (doiSearch item.data).isSome = true →
      attemptListItem net item = directDoiStrategy net item
      ∧ (∀ net2 : Net, net2.fetchByDoi item = net.fetchByDoi item →
          processListItem net2 item = processListItem net item)
      ∧ (∀ msg : CrossrefMsg, net.fetchByDoi item = .ok msg →
          processListItem net item
            = (some (crossref_to_meta msg),
               ⟨item, "doi", true, some (crossref_to_meta msg), none⟩)))
    ∧ (∀ (net : Net) (item : String), doiSearch item.data = none →
        attemptListItem net item = urlStrategy net item) := by
  constructor
  · intro net item h
    refine ⟨?_, ?_, ?_⟩
    · unfold attemptListItem
      rw [if_pos h]
    · intro net2 hagree
      unfold processListItem attemptListItem directDoiStrategy
      rw [if_pos h, if_pos h, hagree]
    · intro msg hok
      unfold processListItem attemptListItem directDoiStrategy
      rw [if_pos h, hok]
  · intro net item h
    unfold attemptListItem
    rw [if_neg]
    simp [h]

/-- Witness for claim C9's theorem: on the line
`see 10.1000/xyz123 end` (which contains a DOI-pattern match but is not
itself a bare DOI) the route is `doi` and the echoing oracle receives the
entire line. -/
theorem batch_item_doi_route_whole_line_witness :
    processListItem c9net "see 10.1000/xyz123 end"
      = (some (crossref_to_meta { DOI := some "see 10.1000/xyz123 end" }),
         ⟨"see 10.1000/xyz123 end", "doi", true,
          some (crossref_to_meta { DOI := some "see 10.1000/xyz123 end" }), none⟩) :=
  (batch_item_doi_route_whole_line.1 c9net "see 10.1000/xyz123 end"
    (by decide)).2.2 { DOI := some "see 10.1000/xyz123 end" } rfl

/-! ## Claim C1 helpers. -/

theorem batchStep_audit (st : List Meta × List AuditEntry)
    (pa : Option Meta × AuditEntry) :
    (batchStep st pa).2 = st.2 ++ [pa.2] := by
  rcases pa with ⟨om, a⟩
  rcases om with _ | m <;> rfl

theorem foldl_batch_audit {α : Type} (f : α → Option Meta × AuditEntry)
    (l : List α) (st : List Meta × List AuditEntry) :
    (l.foldl (fun st x => batchStep st (f x)) st).2
      = st.2 ++ l.map (fun x => (f x).2) := by
  induction l generalizing st with
  | nil => simp
  | cons x t ih =>
    rw [List.foldl_cons, ih, batchStep_audit]
    simp

/-- The audit list of a whole batch is one entry per input, in input order,
each entry a function of its own item alone. -/
theorem tab_batch_audit_map (net : Net) (pdfs : List PdfFile) (lb : String) :
    (tab_batch net pdfs lb).2
      = pdfs.map (fun f => (processPdfItem net f).2)
        ++ (lineItems lb).map (fun it => (processListItem net it).2) := by
  unfold tab_batch
  rw [foldl_batch_audit, foldl_batch_audit]
  simp

/-! ## Claim C1. -/

/-- Claim C1: batch processing is per-item isolated.  The audit list is the
per-item entry map over all inputs (PDFs then lines) in order — so each
entry depends only on its own input and exactly one entry is appended per
input regardless of outcome; an item whose processing raises an exception
yields a `success = false` entry with the error route and the exception
message, while the entries of the other items are those they would receive
in any batch, unchanged in content and order. -/
theorem batch_per_item_isolation :
    (∀ (net : Net) (pdfs : List PdfFile) (lb : String),
      (tab_batch net pdfs lb).2
        = pdfs.map (fun f => (processPdfItem net f).2)
          ++ (lineItems lb).map (fun it => (processListItem net it).2))
    ∧ (∀ (net : Net) (pdfs : List PdfFile) (lb : String),
        (tab_batch net pdfs lb).2.length = pdfs.length + (lineItems lb).length)
    ∧ (∀ (net : Net) (f : PdfFile) (e : String),
        attemptPdfItem net f = .error e →
        (processPdfItem net f).2 = ⟨f.name, "pdf_error", false, none, some e⟩)
    ∧ (∀ (net : Net) (lb : String) (a b c e : String),
        lineItems lb = [a, b, c] → attemptListItem net b = .error e →
        (tab_batch net [] lb).2
          = [(processListItem net a).2,
             ⟨b, "url_error", false, none, some e⟩,
             (processListItem net c).2]
        ∧ (processListItem net b).2.success = false
        ∧ (processListItem net b).2.error = some e
        ∧ (processListItem net b).2.route = "url_error") := by
  refine ⟨tab_batch_audit_map, ?_, ?_, ?_⟩
  · intro net pdfs lb
    rw [tab_batch_audit_map]
    simp
  · intro net f e h
    unfold processPdfItem
    rw [h]
  · intro net lb a b c e hitems herr
    have hb : (processListItem net b).2 = ⟨b, "url_error", false, none, some e⟩ := by
      unfold processListItem
      rw [herr]
    refine ⟨?_, by rw [hb], by rw [hb], by rw [hb]⟩
    rw [tab_batch_audit_map, hitems]
    simp [hb]

/-- Witness for claim C1's theorem: a three-line batch whose middle item is
a URL on which the transport oracle raises `timeout`; the audit holds the
three expected entries in order. -/
theorem batch_per_item_isolation_witness :
    (tab_batch c1net [] "10.1000/aaa\nhttps://example.org/x\n10.1000/ccc").2
      = [(processListItem c1net "10.1000/aaa").2,
         ⟨"https://example.org/x", "url_error", false, none, some "timeout"⟩,
         (processListItem c1net "10.1000/ccc").2]
    ∧ (processListItem c1net "https://example.org/x").2.success = false
    ∧ (processListItem c1net "https://example.org/x").2.error = some "timeout"
    ∧ (processListItem c1net "https://example.org/x").2.route = "url_error" :=
  batch_per_item_isolation.2.2.2 c1net
    "10.1000/aaa\nhttps://example.org/x\n10.1000/ccc"
    "10.1000/aaa" "https://example.org/x" "10.1000/ccc" "timeout"
    (by decide) rfl

end RefApp
